import Mathlib

/-
Verification of the happy-foods nutrient normalization and scoring pipeline.

Shallow embedding of the core functions of the repository:
  src/tools/analyzeMeal.js : estimateServingGrams, getN, inferTheanineFromName,
                             aminoFallbacksFromProtein, extractNutrientsPerServing
  src/utils/weights.js     : NORM, W
  src/utils/normalize.js / src/index.js : clamp01, ratioCapped
  src/tools/predictNeuro.js (imported by the server) : score, predictNeurochemistry

JavaScript numbers are modelled as rationals (ℚ) together with an explicit NaN
value.  The values that can sit in a product record or a nutrient map are
modelled by `JSVal`: a finite number, NaN, or undefined (absence / null /
any non-number value, which the code only ever inspects through
`typeof v === "number"` checks and nullish coalescing, so one non-number
constructor is observationally sufficient).  The infinities are outside the
model: no claim mentions them and every division in the source is guarded so
that its divisor is a nonzero rational on all reachable paths.
-/

namespace HappyFoods

/-- A JavaScript value as the pipeline can observe it: a finite number,
the floating-point NaN, or undefined (covering null and non-number values). -/
inductive JSVal where
  | num : ℚ → JSVal
  | nan : JSVal
  | undefined : JSVal
deriving DecidableEq

/-- JS `typeof v === "number"` (NaN is a number, undefined is not). -/
def isNumberV : JSVal → Bool
  | .num _ => true
  | .nan => true
  | .undefined => false

/-- JS `typeof v === "number" && v > 0` (false for NaN since NaN > 0 is false). -/
def isPosNum : JSVal → Bool
  | .num q => decide (0 < q)
  | _ => false

/-- JS truthiness of a value in a numeric position: 0, NaN and undefined are falsy. -/
def truthy : JSVal → Bool
  | .num q => q != 0
  | .nan => false
  | .undefined => false

/-- JS `v <= 0` (comparisons involving NaN or undefined are false). -/
def leZero : JSVal → Bool
  | .num q => decide (q ≤ 0)
  | _ => false

/-- JS nullish coalescing `a ?? b`: keeps `a` unless it is undefined/null. -/
def coalesce (a b : JSVal) : JSVal :=
  match a with
  | .undefined => b
  | v => v

/-- JS `v ?? 0`, the pervasive default in the extractor and scorer. -/
def orZero (v : JSVal) : JSVal := coalesce v (.num 0)

/-- JS addition on numeric positions; any NaN or undefined operand gives NaN. -/
def jsAdd : JSVal → JSVal → JSVal
  | .num a, .num b => .num (a + b)
  | _, _ => .nan

/-- JS multiplication on numeric positions; any NaN or undefined operand gives NaN. -/
def jsMul : JSVal → JSVal → JSVal
  | .num a, .num b => .num (a * b)
  | _, _ => .nan

/-- JS division on numeric positions.  A NaN or undefined operand gives NaN.
Division by zero would give an infinity (or NaN) in JS; every division in the
source is guarded (the divisor is the literal 100, an anchor checked positive,
or a weight sum checked nonzero), so that case is unreachable and mapped to NaN. -/
def jsDiv : JSVal → JSVal → JSVal
  | .num a, .num b => if b = 0 then .nan else .num (a / b)
  | _, _ => .nan

/-- JS `Math.min(a, b)`; NaN-propagating. -/
def jsMin : JSVal → JSVal → JSVal
  | .num a, .num b => .num (min a b)
  | _, _ => .nan

/-- JS `Math.max(a, b)`; NaN-propagating. -/
def jsMax : JSVal → JSVal → JSVal
  | .num a, .num b => .num (max a b)
  | _, _ => .nan

/-- src/index.js: `clamp01 = (x) => Math.max(0, Math.min(1, x))`. -/
def clamp01 (x : JSVal) : JSVal := jsMax (.num 0) (jsMin (.num 1) x)

/-- src/index.js: `ratioCapped = (value, anchor) =>
\x7b if (!anchor || anchor <= 0) return 0; return clamp01(value / anchor); \x7d`. -/
def ratioCapped (value anchor : JSVal) : JSVal :=
  if !truthy anchor || leZero anchor then .num 0
  else clamp01 (jsDiv value anchor)

/-- Substring occurrence on character lists, used to model
`String.prototype.includes` and the keyword regexp test of the source. -/
def hasSublist (pat hay : List Char) : Bool :=
  hay.tails.any (fun t => pat.isPrefixOf t)

/-- JS `s.includes(pat)` on strings. -/
def strIncludes (s pat : String) : Bool :=
  hasSublist pat.toList s.toList

/-- A product record as estimateServingGrams / extractNutrientsPerServing read
it: the identifying text fields, the two serving fields and the nutriment map.
`serving_size` is `some s` only when the field holds a string (the source
checks `typeof n.serving_size === "string"`); `serving_quantity` is whatever
JS value the field holds.  `nutriments` is `some m` when the record has a
nutriment object, modelled as an association list. -/
structure Product where
  product_name : Option String := none
  categories : Option String := none
  serving_quantity : JSVal := .undefined
  serving_size : Option String := none
  nutriments : Option (List (String × JSVal)) := none

/-- Characters matched by the serving-size regexp character class `[\d.]`. -/
def numChar (c : Char) : Bool := c.isDigit || c == '.'

/-- First match of the regexp `/([\d.]+)/` on a string: the first maximal run
of digit-or-period characters, if any. -/
def firstNumToken (s : String) : Option (List Char) :=
  match s.toList.dropWhile (fun c => !numChar c) with
  | [] => none
  | rest => some (rest.takeWhile numChar)

/-- Value of a list of decimal digit characters. -/
def digitsToNat (ds : List Char) : ℕ :=
  ds.foldl (fun n c => 10 * n + (c.toNat - 48)) 0

/-- JS `parseFloat` restricted to the tokens the regexp above can produce
(nonempty runs of digits and periods): the longest valid decimal prefix is
read (digits, optional period, more digits); a token with no digit before the
second period, such as "." or "..5", parses to NaN. -/
def parseFloatQ (tok : List Char) : JSVal :=
  let a := tok.takeWhile Char.isDigit
  let b := match tok.dropWhile Char.isDigit with
    | '.' :: r => r.takeWhile Char.isDigit
    | _ => []
  if a.isEmpty && b.isEmpty then .nan
  else .num ((digitsToNat (a ++ b) : ℚ) / ((10 : ℚ) ^ b.length))

/-- JS `toLowerCase` on a string, written as a character-wise map (the same
function as String.toLower, whose position-based recursion the kernel cannot
evaluate; this form computes). -/
def toLowerStr (s : String) : String :=
  String.mk (s.data.map Char.toLower)

/-- The lowercased `product_name + " " + categories` text the source builds
before testing for beverage keywords. -/
def beverageText (prod : Product) : String :=
  toLowerStr ((prod.product_name.getD "") ++ " " ++ (prod.categories.getD ""))

/-- The beverage keywords of the regexp `/drink|beverage|tea|coffee|latte|milk|juice/`. -/
def beverageKeywords : List String :=
  ["drink", "beverage", "tea", "coffee", "latte", "milk", "juice"]

/-- The category-based default serving: 240 when the name+category text
contains a beverage keyword, 100 otherwise. -/
def categoryDefault (prod : Product) : JSVal :=
  if beverageKeywords.any (fun k => strIncludes (beverageText prod) k)
  then .num 240 else .num 100

/-- src/tools/analyzeMeal.js `estimateServingGrams`: positive numeric
`serving_quantity` wins; else a string `serving_size` containing a
digit-or-period token is parsed with parseFloat; else the category default. -/
def estimateServingGrams (prod : Product) : JSVal :=
  if isPosNum prod.serving_quantity then prod.serving_quantity
  else
    match prod.serving_size with
    | some s =>
      match firstNumToken s with
      | some tok => parseFloatQ tok
      | none => categoryDefault prod
    | none => categoryDefault prod

/-- src/tools/analyzeMeal.js `getN`: look the key up under `key` when present
(JS `key in nutriments`), else under `key + "_100g"`; return the value when it
is a number (`typeof v === "number"`), else undefined.  The null-map guard of
the source corresponds to the `product.nutriments || \x7b\x7d` at the call
site and is handled there. -/
def getN (nutriments : List (String × JSVal)) (key : String) : JSVal :=
  let k := if (nutriments.lookup key).isSome then key else key ++ "_100g"
  match nutriments.lookup k with
  | some (.num q) => .num q
  | some .nan => .nan
  | _ => .undefined

/-- src/tools/analyzeMeal.js `inferTheanineFromName`: 25 mg when the lowercased
name contains "matcha" or "green tea", else 0. -/
def inferTheanineFromName (name : Option String) : JSVal :=
  let s := toLowerStr (name.getD "")
  if strIncludes s "matcha" || strIncludes s "green tea" then .num 25 else .num 0

/-- src/tools/analyzeMeal.js `aminoFallbacksFromProtein`: the amino fields of
the `current` object (`current.tryptophan_mg`, `current.tyrosine_mg`; undefined
when the object lacks the property) are kept by `??` when supplied, else the
proxy `protein_g > 0 ? protein_g * k : 0` is used (k = 12 for tryptophan,
k = 40 for tyrosine).  Returns the pair (tryptophan_mg, tyrosine_mg). -/
def aminoFallbacksFromProtein (protein_g trp0 tyr0 : JSVal) : JSVal × JSVal :=
  (coalesce trp0 (if isPosNum protein_g then jsMul protein_g (.num 12) else .num 0),
   coalesce tyr0 (if isPosNum protein_g then jsMul protein_g (.num 40) else .num 0))

/-- The fixed-shape per-serving nutrient profile the extractor returns. -/
structure NutrientProfile where
  magnesium_mg : JSVal
  vitaminC_mg : JSVal
  vitaminB6_mg : JSVal
  choline_mg : JSVal
  omega3_mg : JSVal
  theanine_mg : JSVal
  protein_g : JSVal
  calories : JSVal
  fat_g : JSVal
  carbs_g : JSVal
  caffeine_mg : JSVal
  tryptophan_mg : JSVal
  tyrosine_mg : JSVal
deriving DecidableEq

/-- src/tools/analyzeMeal.js `extractNutrientsPerServing`, line by line: read
the per-100g fields through getN with the keys of the source, scale by
`serving_g / 100`, synthesize omega-3 from ALA/EPA/DHA (filter on
`typeof x === "number"`, sum, g→mg), infer theanine from the name, and extend
with the amino fallbacks.  The `current` object passed to
`aminoFallbacksFromProtein` in the source is an object literal without amino
keys, so both amino arguments are undefined here. -/
def extractNutrientsPerServing (product : Product) : NutrientProfile :=
  let nutr := product.nutriments.getD []
  let serving_g := estimateServingGrams product
  let factor := jsDiv serving_g (.num 100)
  let energy_kcal_100g := getN nutr "energy-kcal_100g"
  let proteins_100g := getN nutr "proteins_100g"
  let fat_100g := getN nutr "fat_100g"
  let carbs_100g := getN nutr "carbohydrates_100g"
  let magnesium_100g := getN nutr "magnesium_100g"
  let vitc_100g := getN nutr "vitamin-c_100g"
  let vitb6_100g := getN nutr "vitamin-b6_100g"
  let choline_100g := getN nutr "choline_100g"
  let caffeine_100g := getN nutr "caffeine_100g"
  let ala_100g := getN nutr "ala_100g"
  let epa_100g := getN nutr "epa_100g"
  let dha_100g := getN nutr "dha_100g"
  let omega3_100g :=
    (([ala_100g, epa_100g, dha_100g].filter isNumberV).foldl jsAdd (.num 0))
  let protein_g := jsMul (orZero proteins_100g) factor
  let fat_g := jsMul (orZero fat_100g) factor
  let carbs_g := jsMul (orZero carbs_100g) factor
  let calories := jsMul (orZero energy_kcal_100g) factor
  let magnesium_mg := jsMul (orZero magnesium_100g) factor
  let vitaminC_mg := jsMul (orZero vitc_100g) factor
  let vitaminB6_mg := jsMul (orZero vitb6_100g) factor
  let choline_mg := jsMul (orZero choline_100g) factor
  let omega3_mg := jsMul (jsMul (orZero omega3_100g) factor) (.num 1000)
  let caffeine_mg := jsMul (orZero caffeine_100g) factor
  let theanine_mg := inferTheanineFromName product.product_name
  let amino := aminoFallbacksFromProtein protein_g .undefined .undefined
  { magnesium_mg := magnesium_mg
    vitaminC_mg := vitaminC_mg
    vitaminB6_mg := vitaminB6_mg
    choline_mg := choline_mg
    omega3_mg := omega3_mg
    theanine_mg := theanine_mg
    protein_g := protein_g
    calories := calories
    fat_g := fat_g
    carbs_g := carbs_g
    caffeine_mg := caffeine_mg
    tryptophan_mg := amino.1
    tyrosine_mg := amino.2 }

/-- src/utils/weights.js `NORM`: the anchor table. -/
def NORM : List (String × ℚ) :=
  [("tryptophan_mg", 400), ("tyrosine_mg", 1500), ("magnesium_mg", 300),
   ("omega3_mg", 1000), ("protein_g", 40), ("vitaminB6_mg", 1.3),
   ("vitaminC_mg", 90), ("choline_mg", 425), ("theanine_mg", 50)]

/-- src/utils/weights.js `W.serotonin`. -/
def Wserotonin : List (String × ℚ) :=
  [("tryptophan_mg", 0.8), ("vitaminB6_mg", 0.3), ("omega3_mg", 0.2),
   ("magnesium_mg", 0.2), ("vitaminC_mg", 0.1)]

/-- src/utils/weights.js `W.dopamine`. -/
def Wdopamine : List (String × ℚ) :=
  [("tyrosine_mg", 0.8), ("protein_g", 0.3), ("vitaminB6_mg", 0.2),
   ("magnesium_mg", 0.1)]

/-- src/utils/weights.js `W.gaba`. -/
def Wgaba : List (String × ℚ) :=
  [("magnesium_mg", 0.6), ("theanine_mg", 0.6)]

/-- src/utils/weights.js `W.acetylcholine`. -/
def Wacetylcholine : List (String × ℚ) :=
  [("choline_mg", 1.0)]

/-- JS `nutrients?.[key]`: undefined when the map itself is nullish or the key
is absent. -/
def jsIndex (nutrients : Option (List (String × JSVal))) (key : String) : JSVal :=
  match nutrients with
  | none => .undefined
  | some m => (m.lookup key).getD .undefined

/-- One iteration of the scorer loop: accumulate
`raw += weight * ratioCapped(nutrients?.[key] ?? 0, NORM[key] ?? 0)` and
`max += weight`. -/
def scoreStep (nutrients : Option (List (String × JSVal)))
    (acc : JSVal × ℚ) (kw : String × ℚ) : JSVal × ℚ :=
  let value := orZero (jsIndex nutrients kw.1)
  let anchor : ℚ := (NORM.lookup kw.1).getD 0
  (jsAdd acc.1 (jsMul (.num kw.2) (ratioCapped value (.num anchor))), acc.2 + kw.2)

/-- src/tools/predictNeuro.js `score`: fold the loop over the weight-table
entries (object insertion order) starting from raw = 0, max = 0, then return
`max ? raw / max : 0`. -/
def score (weights : List (String × ℚ))
    (nutrients : Option (List (String × JSVal))) : JSVal :=
  let res := weights.foldl (scoreStep nutrients) (.num 0, 0)
  if res.2 ≠ 0 then jsDiv res.1 (.num res.2) else .num 0

/-- The four-dimensional neurotransmitter profile. -/
structure NeuroProfile where
  serotonin : JSVal
  dopamine : JSVal
  gaba : JSVal
  acetylcholine : JSVal
deriving DecidableEq

/-- src/tools/predictNeuro.js `predictNeurochemistry`: one score per
neurotransmitter against the fixed weight tables. -/
def predictNeurochemistry
    (nutrients : Option (List (String × JSVal))) : NeuroProfile :=
  { serotonin := score Wserotonin nutrients
    dopamine := score Wdopamine nutrients
    gaba := score Wgaba nutrients
    acetylcholine := score Wacetylcholine nutrients }

/-- The extractor's returned object viewed as the key-value map the scorer
receives when the analyze output is fed to predict (same 13 properties, in the
insertion order of the source's object literal). -/
def profileToMap (p : NutrientProfile) : List (String × JSVal) :=
  [("magnesium_mg", p.magnesium_mg), ("vitaminC_mg", p.vitaminC_mg),
   ("vitaminB6_mg", p.vitaminB6_mg), ("choline_mg", p.choline_mg),
   ("omega3_mg", p.omega3_mg), ("theanine_mg", p.theanine_mg),
   ("protein_g", p.protein_g), ("calories", p.calories),
   ("fat_g", p.fat_g), ("carbs_g", p.carbs_g),
   ("caffeine_mg", p.caffeine_mg), ("tryptophan_mg", p.tryptophan_mg),
   ("tyrosine_mg", p.tyrosine_mg)]

/-- A value that is a nonnegative finite number. -/
def isNonnegNum : JSVal → Bool
  | .num q => decide (0 ≤ q)
  | _ => false

/-- All thirteen profile fields are nonnegative finite numbers. -/
def profileNonneg (p : NutrientProfile) : Bool :=
  isNonnegNum p.magnesium_mg && isNonnegNum p.vitaminC_mg &&
  isNonnegNum p.vitaminB6_mg && isNonnegNum p.choline_mg &&
  isNonnegNum p.omega3_mg && isNonnegNum p.theanine_mg &&
  isNonnegNum p.protein_g && isNonnegNum p.calories &&
  isNonnegNum p.fat_g && isNonnegNum p.carbs_g &&
  isNonnegNum p.caffeine_mg && isNonnegNum p.tryptophan_mg &&
  isNonnegNum p.tyrosine_mg

/-- The nine nutrient keys mentioned by some weight table. -/
def weightedKeys : List String :=
  ["tryptophan_mg", "tyrosine_mg", "magnesium_mg", "omega3_mg", "protein_g",
   "vitaminB6_mg", "vitaminC_mg", "choline_mg", "theanine_mg"]

/-- The end-to-end scenario record of the spec: a dark-chocolate product with
per-100g protein, magnesium and caffeine and no serving fields. -/
def darkChocolate : Product :=
  { product_name := some "Dark Chocolate"
    nutriments := some [("proteins_100g", .num 7.8), ("magnesium_100g", .num 228),
                        ("caffeine_100g", .num 0.02)] }

end HappyFoods

namespace HappyFoods

/-! ### Helper lemmas shared by several claims -/

/-- ratioCapped with a nonpositive finite anchor returns 0 (the guard branch). -/
lemma ratioCapped_nonpos (v a : ℚ) (ha : a ≤ 0) :
    ratioCapped (.num v) (.num a) = .num 0 := by
  simp [ratioCapped, leZero, ha]

/-- ratioCapped with a positive anchor is the clamped ratio. -/
lemma ratioCapped_pos (v a : ℚ) (ha : 0 < a) :
    ratioCapped (.num v) (.num a) = .num (max 0 (min 1 (v / a))) := by
  have h1 : (!truthy (.num a) || leZero (.num a)) = false := by
    simp [truthy, leZero, ha.ne', not_le.mpr ha]
  simp [ratioCapped, h1, clamp01, jsDiv, jsMin, jsMax, ha.ne']

/-- On finite arguments, ratioCapped always lands on a rational in [0,1]. -/
lemma ratioCapped_bounds (v a : ℚ) :
    ∃ r : ℚ, ratioCapped (.num v) (.num a) = .num r ∧ 0 ≤ r ∧ r ≤ 1 := by
  rcases le_or_lt a 0 with ha | ha
  · exact ⟨0, ratioCapped_nonpos v a ha, le_rfl, zero_le_one⟩
  · exact ⟨max 0 (min 1 (v / a)), ratioCapped_pos v a ha, le_max_left _ _,
      max_le zero_le_one (min_le_left _ _)⟩

/-- A value that is not NaN becomes a finite number after the `?? 0` default. -/
lemma orZero_num_of_ne_nan (v : JSVal) (h : v ≠ .nan) : ∃ q : ℚ, orZero v = .num q := by
  cases v with
  | num q => exact ⟨q, rfl⟩
  | nan => exact absurd rfl h
  | undefined => exact ⟨0, rfl⟩

/-- Invariant of the scorer loop: starting from a finite raw value r0 with
0 ≤ r0 ≤ m0 and folding nonnegative weights whose keys hold no NaN in the
nutrient map (the only keys the loop reads), the accumulator stays a finite
number r with 0 ≤ r ≤ m. -/
lemma scoreFold_bounds (nutrients : Option (List (String × JSVal))) :
    ∀ (ws : List (String × ℚ)), (∀ p ∈ ws, 0 ≤ p.2) →
      (∀ p ∈ ws, jsIndex nutrients p.1 ≠ .nan) → ∀ (r0 m0 : ℚ),
      0 ≤ r0 → r0 ≤ m0 →
      ∃ r m : ℚ, ws.foldl (scoreStep nutrients) (.num r0, m0) = (.num r, m) ∧
        0 ≤ r ∧ r ≤ m := by
  intro ws
  induction ws with
  | nil => exact fun _ _ r0 m0 h0 h1 => ⟨r0, m0, rfl, h0, h1⟩
  | cons p t ih =>
    intro hw hn r0 m0 h0 h1
    obtain ⟨q, hq⟩ := orZero_num_of_ne_nan _ (hn p (List.mem_cons_self _ _))
    obtain ⟨r1, hr1, hr1a, hr1b⟩ := ratioCapped_bounds q ((NORM.lookup p.1).getD 0)
    have hpw : 0 ≤ p.2 := hw p (List.mem_cons_self _ _)
    have hstep : scoreStep nutrients (.num r0, m0) p = (.num (r0 + p.2 * r1), m0 + p.2) := by
      simp [scoreStep, hq, hr1, jsAdd, jsMul]
    rw [List.foldl_cons, hstep]
    exact ih (fun x hx => hw x (List.mem_cons_of_mem _ hx))
      (fun x hx => hn x (List.mem_cons_of_mem _ hx)) _ _
      (add_nonneg h0 (mul_nonneg hpw hr1a))
      (add_le_add h1 (mul_le_of_le_one_right hpw hr1b))

/-- For nonnegative weights and a nutrient map with no NaN under the weight
table's keys, score returns a finite number in [0,1]. -/
lemma score_unit (ws : List (String × ℚ)) (nutrients : Option (List (String × JSVal)))
    (hw : ∀ p ∈ ws, 0 ≤ p.2) (hn : ∀ p ∈ ws, jsIndex nutrients p.1 ≠ .nan) :
    ∃ r : ℚ, score ws nutrients = .num r ∧ 0 ≤ r ∧ r ≤ 1 := by
  obtain ⟨r, m, hfold, hr0, hrm⟩ := scoreFold_bounds nutrients ws hw hn 0 0 le_rfl le_rfl
  simp only [score, hfold]
  by_cases hm : m = 0
  · subst hm
    have hr : r = 0 := le_antisymm hrm hr0
    subst hr
    exact ⟨0, by simp, le_rfl, zero_le_one⟩
  · have hmpos : 0 < m := lt_of_le_of_ne (le_trans hr0 hrm) (Ne.symm hm)
    refine ⟨r / m, ?_, div_nonneg hr0 hmpos.le, (div_le_one hmpos).mpr hrm⟩
    simp [hm, jsDiv]

/-- The scorer loop only looks at the nutrient map through
`orZero (jsIndex nutrients key)` at the keys of its weight table. -/
lemma scoreFold_congr (n1 n2 : Option (List (String × JSVal))) :
    ∀ (ws : List (String × ℚ)),
      (∀ p ∈ ws, orZero (jsIndex n1 p.1) = orZero (jsIndex n2 p.1)) →
      ∀ acc, ws.foldl (scoreStep n1) acc = ws.foldl (scoreStep n2) acc := by
  intro ws
  induction ws with
  | nil => exact fun _ _ => rfl
  | cons p t ih =>
    intro h acc
    rw [List.foldl_cons, List.foldl_cons]
    have hstep : scoreStep n1 acc p = scoreStep n2 acc p := by
      simp [scoreStep, h p (List.mem_cons_self _ _)]
    rw [hstep]
    exact ih (fun x hx => h x (List.mem_cons_of_mem _ hx)) _

/-- Congruence of score in the nutrient map. -/
lemma score_congr (ws : List (String × ℚ)) (n1 n2 : Option (List (String × JSVal)))
    (h : ∀ p ∈ ws, orZero (jsIndex n1 p.1) = orZero (jsIndex n2 p.1)) :
    score ws n1 = score ws n2 := by
  simp only [score, scoreFold_congr n1 n2 ws h]

end HappyFoods

namespace HappyFoods

/-! ### Claim C5: ratioCapped bounds -/

/-- C5: for all rational value and anchor, ratioCapped lies in [0,1]; it
returns exactly 0 when the anchor is nonpositive or absent (undefined), and
for a positive anchor it equals clamp(value/anchor, 0, 1), so values at or
above the anchor saturate to 1 and nonpositive values clamp to 0. -/
theorem ratioCapped_spec (v a : ℚ) :
    (∃ r : ℚ, ratioCapped (.num v) (.num a) = .num r ∧ 0 ≤ r ∧ r ≤ 1) ∧
    (a ≤ 0 → ratioCapped (.num v) (.num a) = .num 0) ∧
    (0 < a → ratioCapped (.num v) (.num a) = .num (max 0 (min 1 (v / a)))) ∧
    (0 < a → a ≤ v → ratioCapped (.num v) (.num a) = .num 1) ∧
    (0 < a → v ≤ 0 → ratioCapped (.num v) (.num a) = .num 0) ∧
    ratioCapped (.num v) .undefined = .num 0 := by
  refine ⟨ratioCapped_bounds v a, ratioCapped_nonpos v a, ratioCapped_pos v a, ?_, ?_, ?_⟩
  · intro ha hv
    rw [ratioCapped_pos v a ha]
    have h1 : (1 : ℚ) ≤ v / a := (one_le_div ha).mpr hv
    rw [min_eq_left h1, max_eq_right zero_le_one]
  · intro ha hv
    rw [ratioCapped_pos v a ha]
    have h1 : v / a ≤ 0 := div_nonpos_of_nonpos_of_nonneg hv ha.le
    rw [min_eq_right (h1.trans zero_le_one), max_eq_left h1]
  · simp [ratioCapped, truthy]

/-- Witness for C5 at concrete inputs: saturation above the anchor, clamping
of a negative value, and the nonpositive-anchor guard. -/
theorem ratioCapped_spec_witness :
    ratioCapped (.num 150) (.num 100) = .num 1 ∧
    ratioCapped (.num (-3)) (.num 100) = .num 0 ∧
    ratioCapped (.num 5) (.num (-2)) = .num 0 :=
  ⟨(ratioCapped_spec 150 100).2.2.2.1 (by norm_num) (by norm_num),
   (ratioCapped_spec (-3) 100).2.2.2.2.1 (by norm_num) (by norm_num),
   (ratioCapped_spec 5 (-2)).2.1 (by norm_num)⟩

/-! ### Claim C6: score bounds -/

/-- C6: for any weight table of nonnegative weights (the WeightTable type of
the spec) and any nutrient map holding finite values, score lies in [0,1];
on the empty weight table (weight sum 0) it returns 0 instead of dividing. -/
theorem score_bounds (ws : List (String × ℚ)) (nutrients : Option (List (String × JSVal)))
    (hw : ∀ p ∈ ws, 0 ≤ p.2) (hn : ∀ k, jsIndex nutrients k ≠ .nan) :
    (∃ r : ℚ, score ws nutrients = .num r ∧ 0 ≤ r ∧ r ≤ 1) ∧
    (ws = [] → score ws nutrients = .num 0) := by
  refine ⟨score_unit ws nutrients hw (fun p _ => hn p.1), ?_⟩
  rintro rfl
  simp [score]

/-- Witness for C6: the gaba weight table against the absent map. -/
theorem score_bounds_witness :
    (∃ r : ℚ, score Wgaba none = .num r ∧ 0 ≤ r ∧ r ≤ 1) ∧
    score ([] : List (String × ℚ)) none = .num 0 :=
  ⟨(score_bounds Wgaba none (by norm_num [Wgaba]) (fun k h => JSVal.noConfusion h)).1,
   (score_bounds [] none (by simp) (fun k h => JSVal.noConfusion h)).2 rfl⟩

/-! ### Claim C8: scorer and malformed (non-finite) nutrient values -/

/-- C8 counterexample: a NaN stored under a weighted key is not treated as 0;
it propagates through the weighted average, and the gaba score of a map with
NaN magnesium is NaN, not a finite number in [0,1]. -/
theorem score_nan_counterexample :
    (predictNeurochemistry (some [("magnesium_mg", JSVal.nan)])).gaba = JSVal.nan := by
  with_unfolding_all rfl

/-- C8 amended: when every value under one of the nine weighted keys is
finite or absent (no NaN where the scorer reads), all four neurotransmitter
scores are finite numbers in [0,1]; values under unweighted keys such as
caffeine_mg may be anything, NaN included, since the scorer never reads
them.  A non-finite value under a weighted key, by the counterexample,
propagates instead of being treated as 0. -/
theorem predict_finite_of_no_nan (nutrients : Option (List (String × JSVal)))
    (hn : ∀ k ∈ weightedKeys, jsIndex nutrients k ≠ .nan) :
    (∃ r : ℚ, (predictNeurochemistry nutrients).serotonin = .num r ∧ 0 ≤ r ∧ r ≤ 1) ∧
    (∃ r : ℚ, (predictNeurochemistry nutrients).dopamine = .num r ∧ 0 ≤ r ∧ r ≤ 1) ∧
    (∃ r : ℚ, (predictNeurochemistry nutrients).gaba = .num r ∧ 0 ≤ r ∧ r ≤ 1) ∧
    (∃ r : ℚ, (predictNeurochemistry nutrients).acetylcholine = .num r ∧ 0 ≤ r ∧ r ≤ 1) := by
  have hs : ∀ (ws : List (String × ℚ)), (∀ p ∈ ws, 0 ≤ p.2) →
      (∀ p ∈ ws, p.1 ∈ weightedKeys) →
      ∃ r : ℚ, score ws nutrients = .num r ∧ 0 ≤ r ∧ r ≤ 1 :=
    fun ws hw hk => score_unit ws nutrients hw (fun p hp => hn p.1 (hk p hp))
  refine ⟨?_, ?_, ?_, ?_⟩ <;> simp only [predictNeurochemistry]
  · exact hs Wserotonin (by norm_num [Wserotonin]) (by decide)
  · exact hs Wdopamine (by norm_num [Wdopamine]) (by decide)
  · exact hs Wgaba (by norm_num [Wgaba]) (by decide)
  · exact hs Wacetylcholine (by norm_num [Wacetylcholine]) (by decide)

/-- Witness for the amended C8 at a map carrying NaN under the unweighted
caffeine_mg key together with a finite magnesium value: every score is still
a finite number in [0,1]. -/
theorem predict_finite_of_no_nan_witness :
    (∃ r : ℚ, (predictNeurochemistry
        (some [("caffeine_mg", JSVal.nan),
               ("magnesium_mg", JSVal.num 150)])).serotonin = .num r ∧ 0 ≤ r ∧ r ≤ 1) ∧
    (∃ r : ℚ, (predictNeurochemistry
        (some [("caffeine_mg", JSVal.nan),
               ("magnesium_mg", JSVal.num 150)])).dopamine = .num r ∧ 0 ≤ r ∧ r ≤ 1) ∧
    (∃ r : ℚ, (predictNeurochemistry
        (some [("caffeine_mg", JSVal.nan),
               ("magnesium_mg", JSVal.num 150)])).gaba = .num r ∧ 0 ≤ r ∧ r ≤ 1) ∧
    (∃ r : ℚ, (predictNeurochemistry
        (some [("caffeine_mg", JSVal.nan),
               ("magnesium_mg", JSVal.num 150)])).acetylcholine = .num r ∧ 0 ≤ r ∧ r ≤ 1) :=
  predict_finite_of_no_nan
    (some [("caffeine_mg", JSVal.nan), ("magnesium_mg", JSVal.num 150)]) (by decide)

/-! ### Claim C9: noninterference of unweighted nutrients -/

/-- C9: two nutrient maps that agree on the nine weighted keys produce
identical neurotransmitter profiles; in particular caffeine_mg, calories,
fat_g and carbs_g never influence any score. -/
theorem predict_depends_only_on_weighted (n1 n2 : List (String × JSVal))
    (h : ∀ k ∈ weightedKeys, jsIndex (some n1) k = jsIndex (some n2) k) :
    predictNeurochemistry (some n1) = predictNeurochemistry (some n2) := by
  have hs : ∀ (ws : List (String × ℚ)), (∀ p ∈ ws, p.1 ∈ weightedKeys) →
      score ws (some n1) = score ws (some n2) := fun ws hws =>
    score_congr ws _ _ (fun p hp => by rw [h p.1 (hws p hp)])
  simp only [predictNeurochemistry]
  rw [hs Wserotonin (by decide), hs Wdopamine (by decide), hs Wgaba (by decide),
    hs Wacetylcholine (by decide)]

/-- Witness for C9: a map holding only caffeine scores exactly like the empty
map. -/
theorem predict_depends_only_on_weighted_witness :
    predictNeurochemistry (some [("caffeine_mg", JSVal.num 50)]) =
      predictNeurochemistry (some []) :=
  predict_depends_only_on_weighted _ _ (by decide)

/-! ### Claim C10: scorer defaults on absent input -/

/-- C10: a key absent from the map scores exactly like an explicit 0 entry,
and predictNeurochemistry on the empty map, or with no map at all, returns
the all-zero profile. -/
theorem predict_absent_defaults :
    (∀ (ws : List (String × ℚ)) (m : List (String × JSVal)) (k : String),
       m.lookup k = none →
       score ws (some ((k, JSVal.num 0) :: m)) = score ws (some m)) ∧
    predictNeurochemistry (some []) =
      ⟨JSVal.num 0, JSVal.num 0, JSVal.num 0, JSVal.num 0⟩ ∧
    predictNeurochemistry none =
      ⟨JSVal.num 0, JSVal.num 0, JSVal.num 0, JSVal.num 0⟩ := by
  refine ⟨?_, by with_unfolding_all rfl, by with_unfolding_all rfl⟩
  intro ws m k hk
  apply score_congr
  intro p _
  by_cases hpk : p.1 = k
  · subst hpk
    simp [jsIndex, List.lookup, hk, orZero, coalesce]
  · have hb : (p.1 == k) = false := beq_eq_false_iff_ne.mpr hpk
    simp [jsIndex, List.lookup, hb]

/-- Witness for C10: adding an explicit zero magnesium entry to the empty map
does not change the gaba score. -/
theorem predict_absent_defaults_witness :
    score Wgaba (some [("magnesium_mg", JSVal.num 0)]) = score Wgaba (some []) :=
  predict_absent_defaults.1 Wgaba [] "magnesium_mg" rfl

end HappyFoods

namespace HappyFoods

/-! ### Claim C1: amino-acid precedence -/

/-- C1 evaluation at the spec's own scenario: a record that explicitly reports
tryptophan_mg = 50 alongside protein giving a proxy of 120.  The extractor
returns the proxy 120, not the supplied 50, because the `current` object it
passes to aminoFallbacksFromProtein never contains the record's amino keys
(the helper itself would honour a supplied value, as the second conjunct
shows). -/
theorem extract_tryptophan_ignores_supplied :
    (extractNutrientsPerServing
      { nutriments := some [("tryptophan_mg", .num 50),
                            ("proteins_100g", .num 10)] }).tryptophan_mg
      = .num 120 ∧
    (aminoFallbacksFromProtein (.num 10) (.num 50) .undefined).1 = .num 50 := by
  with_unfolding_all exact ⟨rfl, rfl⟩

/-! ### Claim C2: bare-key fallback -/

/-- C2 evaluation: a record storing magnesium under the bare key "magnesium"
is not read.  The extractor calls getN with the already-suffixed key
"magnesium_100g", so getN probes "magnesium_100g" and "magnesium_100g_100g",
never the bare "magnesium", and the profile gets 0. -/
theorem extract_bare_key_not_read :
    (extractNutrientsPerServing
      { nutriments := some [("magnesium", .num 100)] }).magnesium_mg = .num 0 ∧
    getN [("magnesium", .num 100)] "magnesium_100g" = .undefined := by
  with_unfolding_all exact ⟨rfl, rfl⟩

/-! ### Claim C4: end-to-end dark-chocolate scenario -/

/-- C4: the dark-chocolate record estimates a 100 g serving (scale 1), the
extractor returns magnesium 228, protein 7.8, proxies 93.6 and 312, theanine
0, and scoring its output with the default tables gives gaba exactly
0.6 * (228/300) / 1.2 = 0.38. -/
theorem darkChocolate_end_to_end :
    estimateServingGrams darkChocolate = .num 100 ∧
    extractNutrientsPerServing darkChocolate =
      { magnesium_mg := .num 228, vitaminC_mg := .num 0, vitaminB6_mg := .num 0,
        choline_mg := .num 0, omega3_mg := .num 0, theanine_mg := .num 0,
        protein_g := .num 7.8, calories := .num 0, fat_g := .num 0,
        carbs_g := .num 0, caffeine_mg := .num 0.02,
        tryptophan_mg := .num 93.6, tyrosine_mg := .num 312 } ∧
    (predictNeurochemistry
        (some (profileToMap (extractNutrientsPerServing darkChocolate)))).gaba
      = .num 0.38 := by
  with_unfolding_all exact ⟨rfl, rfl, rfl⟩

/-! ### Claim C3: serving estimator totality and positivity -/

/-- The category default is one of the two positive constants. -/
lemma categoryDefault_cases (prod : Product) :
    ∃ g : ℚ, categoryDefault prod = .num g ∧ 0 < g ∧ (g = 240 ∨ g = 100) := by
  unfold categoryDefault
  split
  · exact ⟨240, rfl, by norm_num, Or.inl rfl⟩
  · exact ⟨100, rfl, by norm_num, Or.inr rfl⟩

/-- C3 counterexample: a serving_size of "0 g" parses to 0 (not positive),
and a serving_size whose digit-or-period token is "." parses to NaN instead
of falling through to the category default. -/
theorem estimateServing_counterexample :
    estimateServingGrams { serving_size := some "0 g" } = .num 0 ∧
    estimateServingGrams { serving_size := some ". ml" } = .nan := by
  with_unfolding_all exact ⟨rfl, rfl⟩

/-- C3 amended: on every record whose serving_quantity is not a positive
number and whose serving_size, when a string, contains no digit or period
character, the estimator returns the category default 240 or 100, which is
positive.  (When a digit-or-period token is present its parseFloat value is
returned as is, which the counterexample shows can be 0 or NaN.) -/
theorem estimateServing_default_pos (prod : Product)
    (h1 : isPosNum prod.serving_quantity = false)
    (h2 : ∀ s, prod.serving_size = some s → firstNumToken s = none) :
    ∃ g : ℚ, estimateServingGrams prod = .num g ∧ 0 < g ∧ (g = 240 ∨ g = 100) := by
  unfold estimateServingGrams
  simp only [h1, Bool.false_eq_true, if_false]
  cases hss : prod.serving_size with
  | none => exact categoryDefault_cases prod
  | some s =>
    show ∃ g : ℚ, (match firstNumToken s with
      | some tok => parseFloatQ tok
      | none => categoryDefault prod) = JSVal.num g ∧ 0 < g ∧ (g = 240 ∨ g = 100)
    rw [h2 s hss]
    exact categoryDefault_cases prod

/-- Witness for C3 at a record with no serving fields and a beverage name. -/
theorem estimateServing_default_pos_witness :
    ∃ g : ℚ, estimateServingGrams { product_name := some "green tea" } = .num g ∧
      0 < g ∧ (g = 240 ∨ g = 100) :=
  estimateServing_default_pos _ rfl (fun s h => Option.noConfusion h)

end HappyFoods

namespace HappyFoods

/-! ### Claim C7: extractor output shape and totality -/

/-- Association-list lookup returns a value of the map when it returns at
all, so a property of all stored values holds of the result. -/
lemma lookup_all {P : JSVal → Prop} :
    ∀ (m : List (String × JSVal)), (∀ p ∈ m, P p.2) → ∀ (k : String),
      m.lookup k = none ∨ ∃ v, m.lookup k = some v ∧ P v := by
  intro m
  induction m with
  | nil => exact fun _ k => Or.inl rfl
  | cons p t ih =>
    intro hm k
    obtain ⟨a, b⟩ := p
    by_cases hk : k = a
    · subst hk
      exact Or.inr ⟨b, by simp [List.lookup], hm (k, b) (List.mem_cons_self _ _)⟩
    · have hb : (k == a) = false := beq_eq_false_iff_ne.mpr hk
      have ht := ih (fun q hq => hm q (List.mem_cons_of_mem _ hq)) k
      simpa [List.lookup, hb] using ht

/-- On a nutriment map whose values are nonnegative finite numbers, getN
yields undefined or a nonnegative finite number. -/
lemma getN_cases (m : List (String × JSVal))
    (hm : ∀ p ∈ m, ∃ q : ℚ, p.2 = .num q ∧ 0 ≤ q) (key : String) :
    getN m key = .undefined ∨ ∃ q : ℚ, getN m key = .num q ∧ 0 ≤ q := by
  simp only [getN]
  rcases lookup_all (P := fun v => ∃ q : ℚ, v = JSVal.num q ∧ 0 ≤ q) m hm
      (if (m.lookup key).isSome then key else key ++ "_100g")
    with h | ⟨v, hv, hq⟩
  · rw [h]
    exact Or.inl rfl
  · obtain ⟨q, rfl, hq0⟩ := hq
    rw [hv]
    exact Or.inr ⟨q, rfl, hq0⟩

/-- A value known to be a nonnegative finite number passes isNonnegNum. -/
lemma isNonnegNum_of {v : JSVal} (h : ∃ q : ℚ, v = .num q ∧ 0 ≤ q) :
    isNonnegNum v = true := by
  obtain ⟨q, rfl, hq⟩ := h
  simpa [isNonnegNum] using hq

/-- Scaling a defaulted nutrient value by a nonnegative factor stays a
nonnegative finite number. -/
lemma scaled_nonneg (v : JSVal) (f : ℚ)
    (hv : v = .undefined ∨ ∃ q : ℚ, v = .num q ∧ 0 ≤ q) (hf : 0 ≤ f) :
    ∃ q : ℚ, jsMul (orZero v) (.num f) = .num q ∧ 0 ≤ q := by
  rcases hv with rfl | ⟨q, rfl, hq⟩
  · exact ⟨0 * f, rfl, by simp⟩
  · exact ⟨q * f, rfl, mul_nonneg hq hf⟩

/-- Summing nonnegative finite numbers with jsAdd from a nonnegative start
stays a nonnegative finite number (the omega-3 synthesis). -/
lemma fold_add_nonneg :
    ∀ (l : List JSVal), (∀ v ∈ l, ∃ q : ℚ, v = .num q ∧ 0 ≤ q) →
      ∀ (a : ℚ), 0 ≤ a → ∃ q : ℚ, l.foldl jsAdd (.num a) = .num q ∧ 0 ≤ q := by
  intro l
  induction l with
  | nil => exact fun _ a ha => ⟨a, rfl, ha⟩
  | cons v t ih =>
    intro hl a ha
    obtain ⟨q, rfl, hq⟩ := hl v (List.mem_cons_self _ _)
    have ht := ih (fun w hw => hl w (List.mem_cons_of_mem _ hw)) (a + q) (by linarith)
    simpa [jsAdd] using ht

/-- parseFloat on a regexp token gives NaN or a nonnegative number (the
token has no sign character). -/
lemma parseFloatQ_cases (tok : List Char) :
    parseFloatQ tok = .nan ∨ ∃ q : ℚ, parseFloatQ tok = .num q ∧ 0 ≤ q := by
  simp only [parseFloatQ]
  split
  · exact Or.inl rfl
  · right
    refine ⟨_, rfl, ?_⟩
    positivity

/-- The serving estimator returns NaN or a nonnegative number on every
record. -/
lemma estimateServingGrams_cases (prod : Product) :
    estimateServingGrams prod = .nan ∨
    ∃ g : ℚ, estimateServingGrams prod = .num g ∧ 0 ≤ g := by
  unfold estimateServingGrams
  cases hb : isPosNum prod.serving_quantity with
  | true =>
    right
    cases hsq : prod.serving_quantity with
    | num q =>
      rw [hsq] at hb
      have hq : 0 < q := of_decide_eq_true hb
      exact ⟨q, by simp, hq.le⟩
    | nan => rw [hsq] at hb; simp [isPosNum] at hb
    | undefined => rw [hsq] at hb; simp [isPosNum] at hb
  | false =>
    simp only [Bool.false_eq_true, if_false]
    cases prod.serving_size with
    | none =>
      right
      obtain ⟨g, hg, hg0, _⟩ := categoryDefault_cases prod
      exact ⟨g, hg, hg0.le⟩
    | some s =>
      show (match firstNumToken s with
        | some tok => parseFloatQ tok
        | none => categoryDefault prod) = JSVal.nan ∨
        ∃ g : ℚ, (match firstNumToken s with
          | some tok => parseFloatQ tok
          | none => categoryDefault prod) = JSVal.num g ∧ 0 ≤ g
      cases firstNumToken s with
      | none =>
        right
        obtain ⟨g, hg, hg0, _⟩ := categoryDefault_cases prod
        exact ⟨g, hg, hg0.le⟩
      | some tok =>
        rcases parseFloatQ_cases tok with h | ⟨q, hq, hq0⟩
        · exact Or.inl h
        · exact Or.inr ⟨q, hq, hq0⟩

/-- The amino proxies derived from a nonnegative finite protein value are
nonnegative finite numbers. -/
lemma aminoFallbacks_nonneg (pv : JSVal) (hp : ∃ p : ℚ, pv = .num p ∧ 0 ≤ p) :
    (∃ q : ℚ, (aminoFallbacksFromProtein pv .undefined .undefined).1 = .num q ∧ 0 ≤ q) ∧
    (∃ q : ℚ, (aminoFallbacksFromProtein pv .undefined .undefined).2 = .num q ∧ 0 ≤ q) := by
  obtain ⟨p, rfl, hp0⟩ := hp
  simp only [aminoFallbacksFromProtein, coalesce]
  cases hb : isPosNum (JSVal.num p) with
  | true =>
    simp only [if_true]
    exact ⟨⟨p * 12, rfl, by nlinarith⟩, ⟨p * 40, rfl, by nlinarith⟩⟩
  | false =>
    simp only [Bool.false_eq_true, if_false]
    exact ⟨⟨0, rfl, le_rfl⟩, ⟨0, rfl, le_rfl⟩⟩

/-- A getN result that passes the `typeof x === "number"` filter is a
nonnegative finite number when the map is well formed. -/
lemma getN_num_of_isNumber (m : List (String × JSVal))
    (hm : ∀ p ∈ m, ∃ q : ℚ, p.2 = .num q ∧ 0 ≤ q) (key : String)
    (h : isNumberV (getN m key) = true) :
    ∃ q : ℚ, getN m key = .num q ∧ 0 ≤ q := by
  rcases getN_cases m hm key with h2 | h2
  · rw [h2] at h; simp [isNumberV] at h
  · exact h2

/-- C7 counterexample: a record reporting a negative protein value yields a
negative protein_g in the profile, so not every field is a finite number
at least 0 for every product record. -/
theorem extract_negative_counterexample :
    (extractNutrientsPerServing
      { nutriments := some [("proteins_100g", .num (-5))] }).protein_g = .num (-5) ∧
    isNonnegNum (extractNutrientsPerServing
      { nutriments := some [("proteins_100g", .num (-5))] }).protein_g = false := by
  with_unfolding_all exact ⟨rfl, rfl⟩

/-- C7 amended: for every product record whose nutriment values are all
nonnegative finite numbers (or whose nutriment map is absent) and whose
serving estimate is not NaN (a serving_size like ". ml" is the only way to
produce NaN there), the profile holds all thirteen keys, each a finite
number at least 0.  Presence of every key is given by the NutrientProfile
shape itself. -/
theorem extract_nonneg_of_wellformed (prod : Product)
    (hm : ∀ m, prod.nutriments = some m → ∀ p ∈ m, ∃ q : ℚ, p.2 = .num q ∧ 0 ≤ q)
    (hs : estimateServingGrams prod ≠ .nan) :
    profileNonneg (extractNutrientsPerServing prod) = true := by
  have hnutr : ∀ p ∈ prod.nutriments.getD [], ∃ q : ℚ, p.2 = .num q ∧ 0 ≤ q := by
    cases hn : prod.nutriments with
    | none => intro p hp; simp at hp
    | some m => simpa using hm m hn
  rcases estimateServingGrams_cases prod with h | ⟨g, hg, hg0⟩
  · exact absurd h hs
  have hfac : jsDiv (estimateServingGrams prod) (.num 100) = .num (g / 100) := by
    rw [hg]
    norm_num [jsDiv]
  have hfac0 : 0 ≤ g / 100 := div_nonneg hg0 (by norm_num)
  set nutr := prod.nutriments.getD [] with hnutrdef
  have hfield : ∀ key : String,
      ∃ q : ℚ, jsMul (orZero (getN nutr key))
        (jsDiv (estimateServingGrams prod) (.num 100)) = .num q ∧ 0 ≤ q := by
    intro key
    rw [hfac]
    exact scaled_nonneg _ _ (getN_cases nutr hnutr key) hfac0
  have h01 : isNonnegNum (extractNutrientsPerServing prod).magnesium_mg = true :=
    isNonnegNum_of (hfield "magnesium_100g")
  have h02 : isNonnegNum (extractNutrientsPerServing prod).vitaminC_mg = true :=
    isNonnegNum_of (hfield "vitamin-c_100g")
  have h03 : isNonnegNum (extractNutrientsPerServing prod).vitaminB6_mg = true :=
    isNonnegNum_of (hfield "vitamin-b6_100g")
  have h04 : isNonnegNum (extractNutrientsPerServing prod).choline_mg = true :=
    isNonnegNum_of (hfield "choline_100g")
  have h05 : isNonnegNum (extractNutrientsPerServing prod).protein_g = true :=
    isNonnegNum_of (hfield "proteins_100g")
  have h06 : isNonnegNum (extractNutrientsPerServing prod).calories = true :=
    isNonnegNum_of (hfield "energy-kcal_100g")
  have h07 : isNonnegNum (extractNutrientsPerServing prod).fat_g = true :=
    isNonnegNum_of (hfield "fat_100g")
  have h08 : isNonnegNum (extractNutrientsPerServing prod).carbs_g = true :=
    isNonnegNum_of (hfield "carbohydrates_100g")
  have h09 : isNonnegNum (extractNutrientsPerServing prod).caffeine_mg = true :=
    isNonnegNum_of (hfield "caffeine_100g")
  have ho : isNonnegNum (extractNutrientsPerServing prod).omega3_mg = true := by
    obtain ⟨s0, hsum, hs0⟩ :
        ∃ q : ℚ, ([getN nutr "ala_100g", getN nutr "epa_100g",
          getN nutr "dha_100g"].filter isNumberV).foldl jsAdd (.num 0) = .num q ∧ 0 ≤ q := by
      apply fold_add_nonneg _ _ 0 le_rfl
      intro v hv
      rw [List.mem_filter] at hv
      obtain ⟨hvm, hvn⟩ := hv
      have hv3 : v = getN nutr "ala_100g" ∨ v = getN nutr "epa_100g" ∨
          v = getN nutr "dha_100g" := by simpa using hvm
      rcases hv3 with rfl | rfl | rfl <;> exact getN_num_of_isNumber nutr hnutr _ hvn
    have e : (extractNutrientsPerServing prod).omega3_mg =
        jsMul (jsMul (orZero (([getN nutr "ala_100g", getN nutr "epa_100g",
          getN nutr "dha_100g"].filter isNumberV).foldl jsAdd (.num 0)))
          (jsDiv (estimateServingGrams prod) (.num 100))) (.num 1000) := rfl
    rw [e, hsum, hfac]
    exact isNonnegNum_of ⟨s0 * (g / 100) * 1000, rfl,
      mul_nonneg (mul_nonneg hs0 hfac0) (by norm_num)⟩
  have hthea : isNonnegNum (extractNutrientsPerServing prod).theanine_mg = true := by
    have e : (extractNutrientsPerServing prod).theanine_mg =
        inferTheanineFromName prod.product_name := rfl
    rw [e]
    simp only [inferTheanineFromName]
    split
    · exact isNonnegNum_of ⟨25, rfl, by norm_num⟩
    · exact isNonnegNum_of ⟨0, rfl, le_rfl⟩
  have hamino := aminoFallbacks_nonneg _ (hfield "proteins_100g")
  have htrp : isNonnegNum (extractNutrientsPerServing prod).tryptophan_mg = true :=
    isNonnegNum_of hamino.1
  have htyr : isNonnegNum (extractNutrientsPerServing prod).tyrosine_mg = true :=
    isNonnegNum_of hamino.2
  simp [profileNonneg, h01, h02, h03, h04, h05, h06, h07, h08, h09, ho, hthea, htrp, htyr]

/-- Witness for C7 at the empty record: no nutriment map, default serving,
all-zero profile. -/
theorem extract_nonneg_witness :
    profileNonneg (extractNutrientsPerServing {}) = true :=
  extract_nonneg_of_wellformed {} (fun m h => Option.noConfusion h)
    (fun h => JSVal.noConfusion h)

end HappyFoods
